import Mathlib

/-!
Verification development for the crav-pdf-builder credit/payment core.

The definitions below are a shallow embedding of the TypeScript route
handlers in `src/app/api/webhooks/paypal/route.ts` and
`src/app/api/batch/route.ts`, together with the database state they
mutate (`user_credits`, `credit_transactions`, `receipts`,
`payment_logs`, `batch_jobs`, `job_queue`).  Database rows are Lean
structures, tables are lists, and the per-request handlers are pure
functions from a store to a store plus a response.  Code of the
repository that is not present in `src/` (the `deduct_credits` SQL
function and the `deductCreditsAtomic` helper from
`lib/supabase-client.ts`) is modelled from the specification, as noted
on the corresponding definitions.
-/

namespace PdfBuilder

/-- Opaque user identifier, as handed to the handlers by Supabase auth. -/
abbrev AccountId := String

/-- A row of `credit_transactions`: the repository's ledger entries.
`amount` is the signed delta applied to the balance. -/
structure Txn where
  user_id : AccountId
  amount : Int
  reason : String
  capture_id : String
deriving Repr, DecidableEq

/-- A row of `receipts`, as inserted by the PayPal webhook handler.
The monetary amount is kept as the raw payload string. -/
structure Receipt where
  user_id : AccountId
  credits : Int
  paypal_capture_id : String
  amount_value : String
deriving Repr, DecidableEq

/-- A row of `payment_logs`. -/
structure PaymentLog where
  user_id : AccountId
  provider : String
  payment_id : String
  status : String
deriving Repr, DecidableEq

/-- A per-file entry of a `batch_jobs.files` array. -/
structure BatchFileRec where
  input_url : String
  status : String
deriving Repr, DecidableEq

/-- A row of `batch_jobs`. -/
structure BatchJobRec where
  user_id : AccountId
  operation : String
  status : String
  files : List BatchFileRec
deriving Repr, DecidableEq

/-- The durable state the handlers read and write.  `credits` is the
`user_credits` table as an association list from user id to balance;
the other fields are append-only tables. -/
structure Store where
  credits : List (AccountId × Int)
  transactions : List Txn
  receipts : List Receipt
  paymentLogs : List PaymentLog
  batchJobs : List BatchJobRec
  jobQueue : List String
deriving Repr, DecidableEq

/-- The empty database. -/
def Store.empty : Store := ⟨[], [], [], [], [], []⟩

/-- Look up a row of an association list by key. -/
def lookupRow {β : Type} : List (String × β) → String → Option β
  | [], _ => none
  | (k, v) :: rest, u => if k = u then some v else lookupRow rest u

/-- Set (upsert) a row of an association list. -/
def setRow {β : Type} : List (String × β) → String → β → List (String × β)
  | [], u, v => [(u, v)]
  | (k, w) :: rest, u, v =>
      if k = u then (u, v) :: rest else (k, w) :: setRow rest u v

/-- The balance a handler observes for a user: the stored row, with a
missing row read as 0 (the handlers write `currentData?.credits || 0`
and `creditData?.balance || 0`). -/
def balanceOf (s : Store) (u : AccountId) : Int :=
  (lookupRow s.credits u).getD 0

/-- Upsert a user's balance row, mirroring the handlers' `upsert` on
`user_credits`. -/
def upsertCredits (s : Store) (u : AccountId) (v : Int) : Store :=
  { s with credits := setRow s.credits u v }

/-! ## The PayPal webhook handler (`src/app/api/webhooks/paypal/route.ts`) -/

/-- The static credit-package table of the webhook route
(`CREDIT_PACKAGES`). -/
def CREDIT_PACKAGES : List (String × Int) :=
  [("STARTER_PLAN", 100), ("PRO_PLAN", 500),
   ("BUSINESS_PLAN", 2000), ("ENTERPRISE_PLAN", 10000)]

/-- Association-list lookup returning 0 for a missing key: the route's
`CREDIT_PACKAGES[planId] || 0` (every table value is nonzero, so the
`|| 0` only fires for a missing key). -/
def pkgCredits : List (String × Int) → String → Int
  | [], _ => 0
  | (k, v) :: rest, p => if k = p then v else pkgCredits rest p

/-- Credits granted for a plan id. -/
def lookupPkg (p : String) : Int := pkgCredits CREDIT_PACKAGES p

/-- The fields of `event.resource` the handler reads.  `custom_id` and
`invoice_id` are absent-or-string, matching the payload. -/
structure Capture where
  custom_id : Option String
  invoice_id : Option String
  id : String
  amount_value : String
  currency : String
deriving Repr, DecidableEq

/-- The handler's `if (!userId || !planId)` guard: both ids present and
non-empty (the empty string is falsy in JavaScript). -/
def capIds (cap : Capture) : Option (String × String) :=
  match cap.custom_id, cap.invoice_id with
  | some u, some p => if u = "" ∨ p = "" then none else some (u, p)
  | _, _ => none

/-- Outcome of `handlePaymentCompleted`.  The two rejection
constructors correspond exactly to the handler's `console.error`-and-
return branches ('Missing user_id or plan_id in PayPal webhook' and
'Unknown plan ID'). -/
inductive HandleResult
  | accepted
  | rejectedMissing
  | rejectedUnknownPlan
deriving Repr, DecidableEq

/-- The balance read the handler performs before writing: `select
credits ... single()`, with a missing row read as 0. -/
def webhookReadPhase (s : Store) (u : AccountId) : Int := balanceOf s u

/-- The write half of the handler's accepted path: upsert the balance
to `cur + creditsToAdd` (an absolute value computed from the earlier
read) and append the transaction, receipt and payment-log rows. -/
def webhookWritePhase (s : Store) (cap : Capture) (u : AccountId)
    (creditsToAdd : Int) (cur : Int) : Store :=
  let s1 := upsertCredits s u (cur + creditsToAdd)
  let s2 := { s1 with transactions := s1.transactions ++
    [Txn.mk u creditsToAdd ("PayPal purchase: " ++ cap.id) cap.id] }
  let s3 := { s2 with receipts := s2.receipts ++
    [Receipt.mk u creditsToAdd cap.id cap.amount_value] }
  { s3 with paymentLogs := s3.paymentLogs ++
    [PaymentLog.mk u "paypal" cap.id "completed"] }

/-- `handlePaymentCompleted` from the webhook route: extract ids,
reject on missing ids or unknown plan, otherwise read the current
balance and write back the computed total plus audit rows.  There is
no lookup of `cap.id` (the capture external id) anywhere: the handler
keeps no dedup store. -/
def handlePaymentCompleted (s : Store) (cap : Capture) : Store × HandleResult :=
  match capIds cap with
  | none => (s, .rejectedMissing)
  | some (userId, planId) =>
    if lookupPkg planId = 0 then (s, .rejectedUnknownPlan)
    else
      (webhookWritePhase s cap userId (lookupPkg planId) (webhookReadPhase s userId),
       .accepted)

/-- `handlePaymentFailed` from the webhook route: log the failed
payment if the user id is present, mutate nothing else. -/
def handlePaymentFailed (s : Store) (cap : Capture) : Store :=
  match cap.custom_id with
  | some u =>
      if u = "" then s
      else { s with paymentLogs := s.paymentLogs ++
        [PaymentLog.mk u "paypal" cap.id "failed"] }
  | none => s

/-- The parsed `event_type` dispatch of the webhook `POST`. -/
inductive PayPalEvent
  | captureCompleted (cap : Capture)
  | captureDenied (cap : Capture)
  | captureDeclined (cap : Capture)
  | unhandled (eventType : String)
deriving Repr, DecidableEq

/-- The webhook `POST` handler: 400 when signature verification fails
(malformed bodies also take this path, since `verifyPayPalWebhook`
parses the body inside its own try/catch and returns false), otherwise
dispatch on `event_type` and answer `{received: true}` with status
200 — whatever `handlePaymentCompleted` decided. -/
def webhookPOST (s : Store) (sigValid : Bool) (ev : PayPalEvent) : Store × Nat :=
  if sigValid = false then (s, 400)
  else
    match ev with
    | .captureCompleted cap => ((handlePaymentCompleted s cap).1, 200)
    | .captureDenied cap => (handlePaymentFailed s cap, 200)
    | .captureDeclined cap => (handlePaymentFailed s cap, 200)
    | .unhandled _ => (s, 200)

/-! ## The atomic deduction primitive -/

/-- Result shape of the atomic deduction helper (`success`,
`remaining`, `required`). -/
structure DeductResult where
  success : Bool
  remaining : Int
  required : Int
deriving Repr, DecidableEq

/-- Modelled from the spec: the `deduct_credits` SQL function and the
`deductCreditsAtomic` helper of `lib/supabase-client.ts` are not under
`src/`; the spec's Credit Ledger `reserve` contract is "Requires
`amount > 0`. Atomically checks `balance >= amount`, writes a
LedgerEntry with `delta = -amount`, decrements balance, all within one
isolated transaction".  The model checks and mutates in one step and
reports `remaining`/`required` as the deduct endpoint surfaces them. -/
def deductCreditsAtomic (s : Store) (u : AccountId) (amount : Int)
    (reason : String) : Store × DeductResult :=
  if 0 < amount ∧ amount ≤ balanceOf s u then
    ({ upsertCredits s u (balanceOf s u - amount) with
        transactions := (upsertCredits s u (balanceOf s u - amount)).transactions ++
          [Txn.mk u (-amount) reason ""] },
     DeductResult.mk true (balanceOf s u - amount) amount)
  else (s, DeductResult.mk false (balanceOf s u) amount)

/-! ## The batch submission route (`src/app/api/batch/route.ts`) -/

/-- The route's `CREDIT_COSTS` table: credits per file for each
operation. -/
def CREDIT_COSTS : List (String × Int) :=
  [("merge", 1), ("split", 1), ("compress", 1), ("convert", 2),
   ("watermark", 1), ("password_protect", 1), ("remove_password", 1),
   ("rotate", 1), ("extract_pages", 1), ("add_page_numbers", 1),
   ("ocr", 3)]

/-- Per-unit cost of an operation; 0 for an unknown operation, which
the route's `!CREDIT_COSTS[operation]` guard treats as invalid (no
table value is 0). -/
def creditCostUnit (op : String) : Int := pkgCredits CREDIT_COSTS op

/-- One store write of the batch `POST` handler, in the order the
handler issues them.  The deduction RPC is called with exactly
`p_user_id`, `p_amount` and `p_reason` — the call carries no
idempotency key. -/
inductive StoreWrite
  | insertJob (job : BatchJobRec)
  | rpcDeduct (u : AccountId) (amount : Int) (reason : String)
  | insertQueue (jobType : String)
deriving Repr, DecidableEq

/-- Response of the batch `POST` handler. -/
inductive BatchResp
  | badRequest (msg : String)
  | insufficient (required available : Int)
  | success (creditsUsed : Int)
deriving Repr, DecidableEq

/-- Result of one batch submission: the final store, the response, and
the ordered trace of store writes the handler performed. -/
structure BatchOutcome where
  store : Store
  resp : BatchResp
  trace : List StoreWrite
deriving Repr, DecidableEq

/-- The balance check of the batch handler: a plain `select balance`
read (missing row read as 0) compared against the cost — a separate
operation from the later deduction. -/
def batchCheckPhase (s : Store) (u : AccountId) (cost : Int) : Bool :=
  decide (cost ≤ balanceOf s u)

/-- The job row the handler inserts: `status: 'pending'` with one
`{input_url, status: 'pending'}` entry per file. -/
def mkBatchJob (u : AccountId) (op : String) (fs : List String) : BatchJobRec :=
  BatchJobRec.mk u op "pending" (fs.map (fun f => BatchFileRec.mk f "pending"))

/-- The reason string passed to the deduction RPC. -/
def batchDeductReason (op : String) (fs : List String) : String :=
  "Batch " ++ op ++ ": " ++ toString fs.length ++ " files"

/-- The commit half of the batch handler, run after the check passed:
insert the `batch_jobs` row, call the deduction RPC (its result is not
checked by the handler), and enqueue background work. -/
def batchCommitPhase (s : Store) (u : AccountId) (op : String)
    (fs : List String) (cost : Int) : Store :=
  let s1 := { s with batchJobs := s.batchJobs ++ [mkBatchJob u op fs] }
  let s2 := (deductCreditsAtomic s1 u cost (batchDeductReason op fs)).1
  { s2 with jobQueue := s2.jobQueue ++ ["batch_pdf"] }

/-- The batch `POST` handler after authentication: validate the
payload, compute `creditCost = CREDIT_COSTS[operation] * files.length`,
read the balance and reject with required/available when it is short,
otherwise insert the job, deduct, and enqueue. -/
def batchPOST (s : Store) (u : AccountId) (operation : Option String)
    (files : Option (List String)) : BatchOutcome :=
  match operation, files with
  | some op, some fs =>
    if op = "" ∨ fs = [] then
      BatchOutcome.mk s (.badRequest "operation and files required") []
    else if creditCostUnit op = 0 then
      BatchOutcome.mk s (.badRequest "Invalid operation") []
    else
      if ¬ batchCheckPhase s u (creditCostUnit op * fs.length) then
        BatchOutcome.mk s
          (.insufficient (creditCostUnit op * fs.length) (balanceOf s u)) []
      else
        BatchOutcome.mk (batchCommitPhase s u op fs (creditCostUnit op * fs.length))
          (.success (creditCostUnit op * fs.length))
          [.insertJob (mkBatchJob u op fs),
           .rpcDeduct u (creditCostUnit op * fs.length) (batchDeductReason op fs),
           .insertQueue "batch_pdf"]
  | _, _ => BatchOutcome.mk s (.badRequest "operation and files required") []

/-! ## The rate limiter (`checkRateLimit` in the deduction route) -/

/-- One entry of the in-memory `rateLimitMap`. -/
structure RateEntry where
  count : Nat
  resetAt : Nat
deriving Repr, DecidableEq

/-- The process-wide `rateLimitMap`, keyed by user id. -/
abbrev RateMap := List (String × RateEntry)

/-- `RATE_LIMIT = 10` requests per window. -/
def RATE_LIMIT : Nat := 10

/-- `RATE_WINDOW = 60 * 1000` milliseconds. -/
def RATE_WINDOW : Nat := 60 * 1000

/-- `checkRateLimit` from the deduction route: a fresh identity or an
expired window starts a new entry `{count: 1, resetAt: now +
RATE_WINDOW}` and is allowed; at `count ≥ RATE_LIMIT` the call is
denied without mutation; otherwise the counter is incremented and the
call allowed. -/
def checkRateLimit (now : Nat) (m : RateMap) (u : String) : Bool × RateMap :=
  match lookupRow m u with
  | none => (true, setRow m u (RateEntry.mk 1 (now + RATE_WINDOW)))
  | some e =>
    if now > e.resetAt then
      (true, setRow m u (RateEntry.mk 1 (now + RATE_WINDOW)))
    else if e.count ≥ RATE_LIMIT then (false, m)
    else (true, setRow m u (RateEntry.mk (e.count + 1) e.resetAt))

/-- Run a sequence of timestamped calls for one identity through the
rate limiter, collecting the verdicts. -/
def runCalls (u : String) : List Nat → RateMap → List Bool × RateMap
  | [], m => ([], m)
  | t :: ts, m =>
    let (b, m1) := checkRateLimit t m u
    let (bs, m2) := runCalls u ts m1
    (b :: bs, m2)

/-! ## The credit deduction endpoint (second `POST` in the webhook file) -/

/-- A parsed JSON value as the deduction endpoint sees `body.amount`
(credit amounts are integral throughout the schema). -/
inductive JsonVal
  | num (n : Int)
  | str (s : String)
  | boolean (b : Bool)
  | null
deriving Repr, DecidableEq

/-- JavaScript truthiness of the optional `amount` field, as tested by
the route's `!amount`. -/
def jsTruthy : Option JsonVal → Bool
  | none => false
  | some (.num n) => n ≠ 0
  | some (.str s) => s ≠ ""
  | some (.boolean b) => b
  | some .null => false

/-- The route's `typeof amount !== 'number'` test. -/
def isNumberVal : Option JsonVal → Bool
  | some (.num _) => true
  | _ => false

/-- Response of the deduction endpoint (after auth and rate limiting,
which precede the body validation being modelled). -/
inductive DeductResp
  | badRequest (msg : String)
  | paymentRequired (remaining required : Int)
  | ok (remaining deducted : Int)
deriving Repr, DecidableEq

/-- The `reason || 'Credit usage'` default (falsy reasons fall back). -/
def reasonOrDefault : Option String → String
  | some r => if r = "" then "Credit usage" else r
  | none => "Credit usage"

/-- The deduction `POST` handler from line 294 on: reject with 400 when
`!amount || typeof amount !== 'number' || amount <= 0` or when
`amount > 1000`, otherwise run the atomic deduction and answer 402 on
failure or 200 on success. -/
def deductPOST (s : Store) (u : AccountId) (amount : Option JsonVal)
    (reason : Option String) : Store × DeductResp :=
  if ¬ jsTruthy amount ∨ ¬ isNumberVal amount then
    (s, .badRequest "Invalid amount. Must be a positive number.")
  else
    match amount with
    | some (.num n) =>
      if n ≤ 0 then (s, .badRequest "Invalid amount. Must be a positive number.")
      else if n > 1000 then
        (s, .badRequest "Amount exceeds maximum (1000 credits per transaction)")
      else
        let (s1, r) := deductCreditsAtomic s u n (reasonOrDefault reason)
        if r.success then (s1, .ok r.remaining n)
        else (s1, .paymentRequired r.remaining r.required)
    | _ => (s, .badRequest "Invalid amount. Must be a positive number.")

/-! ## Interleaving model for concurrent batch submissions

The batch handler performs its balance check (`batchCheckPhase`) and
its mutation (`batchCommitPhase`) as two separate store operations, so
two concurrent requests can interleave between them.  A thread is one
in-flight submission; its program counter is 0 before the check, 1
after a passed check, 2 after the commit (the handler then returns its
success response), 3 after a failed check (402 response). -/

structure BatchThread where
  pc : Nat
  u : AccountId
  op : String
  files : List String
deriving Repr, DecidableEq

/-- The cost the thread's handler computes. -/
def threadCost (t : BatchThread) : Int := creditCostUnit t.op * t.files.length

/-- One atomic step of an in-flight batch submission against the
shared store. -/
def stepBatchThread (s : Store) (t : BatchThread) : Store × BatchThread :=
  match t.pc with
  | 0 =>
    if batchCheckPhase s t.u (threadCost t) then (s, { t with pc := 1 })
    else (s, { t with pc := 3 })
  | 1 => (batchCommitPhase s t.u t.op t.files (threadCost t), { t with pc := 2 })
  | _ => (s, t)

/-- Run two threads under an explicit schedule: `false` steps the
first thread, `true` the second. -/
def runSched : Store → BatchThread → BatchThread → List Bool →
    Store × BatchThread × BatchThread
  | s, a, b, [] => (s, a, b)
  | s, a, b, pick :: rest =>
    if pick then
      let (s1, b1) := stepBatchThread s b
      runSched s1 a b1 rest
    else
      let (s1, a1) := stepBatchThread s a
      runSched s1 a1 b rest

/-! ## Sequences of ledger operations -/

/-- Modelled from the spec: no reconcile step exists under `src/` (the
batch worker is not in the repository); the spec's `reconcile(job_id,
reserved, actual, key)` credits back `reserved - actual` when
`actual < reserved` via the same atomic path as `credit`, and
otherwise only logs an anomaly without mutating the balance. -/
def reconcile (s : Store) (u : AccountId) (reserved actual : Int) : Store :=
  if actual < reserved then
    let bal := balanceOf s u
    let s1 := upsertCredits s u (bal + (reserved - actual))
    { s1 with transactions := s1.transactions ++
        [Txn.mk u (reserved - actual) "batch refund" ""] }
  else s

/-- One ledger-affecting operation: a provider credit (webhook
completed-payment event), a batch submission (reserve/deduct), or a
job reconciliation. -/
inductive LedgerOp
  | creditEvent (cap : Capture)
  | reserveJob (u : AccountId) (operation : Option String) (files : Option (List String))
  | reconcileJob (u : AccountId) (reserved actual : Int)
deriving Repr, DecidableEq

/-- Apply one operation to the store. -/
def applyOp (s : Store) : LedgerOp → Store
  | .creditEvent cap => (handlePaymentCompleted s cap).1
  | .reserveJob u op fs => (batchPOST s u op fs).store
  | .reconcileJob u r a => reconcile s u r a

/-- Apply a sequence of operations. -/
def applyOps (s : Store) (ops : List LedgerOp) : Store := ops.foldl applyOp s

/-- Every observable balance of the store is non-negative. -/
def NonNeg (s : Store) : Prop := ∀ u : AccountId, 0 ≤ balanceOf s u

/-! ## Concrete fixtures -/

/-- The spec's concrete webhook event: capture `cap_123` crediting 100
(plan `STARTER_PLAN`). -/
def cap123 : Capture :=
  Capture.mk (some "user-1") (some "STARTER_PLAN") "cap_123" "9.99" "USD"

/-- A completed-payment event with an unknown plan id. -/
def mysteryCap : Capture :=
  Capture.mk (some "user-1") (some "MYSTERY_PLAN") "cap_9" "1.00" "USD"

/-- A store holding one account with balance 5. -/
def sAlice : Store := { Store.empty with credits := [("alice", 5)] }

/-- A store holding one account with balance 1. -/
def raceStore : Store := { Store.empty with credits := [("alice", 1)] }

/-- An in-flight one-file merge submission for that account (cost 1). -/
def raceThread : BatchThread := BatchThread.mk 0 "alice" "merge" ["doc1"]

/-- Store after delivering `cap123` once, twice, three times. -/
def deliverOnce : Store := (handlePaymentCompleted Store.empty cap123).1

/-- Store after the second delivery of the same event. -/
def deliverTwice : Store := (handlePaymentCompleted deliverOnce cap123).1

/-- Store after the third delivery of the same event. -/
def deliverThrice : Store := (handlePaymentCompleted deliverTwice cap123).1

/-- The amount domain the deduction endpoint's validation is claimed to
accept: a number with `0 < n ≤ 1000`. -/
def validAmount : Option JsonVal → Bool
  | some (.num n) => decide (0 < n) && decide (n ≤ 1000)
  | _ => false

/-- A demonstration operation sequence for the non-negativity theorem. -/
def demoOps : List LedgerOp :=
  [LedgerOp.creditEvent cap123,
   LedgerOp.reserveJob "user-1" (some "ocr") (some ["a.pdf", "b.pdf"]),
   LedgerOp.reconcileJob "user-1" 6 3]

/-- Whether a deduction-endpoint response is the 400 rejection. -/
def isBadRequest : DeductResp → Bool
  | .badRequest _ => true
  | _ => false

/-! ## Helper lemmas -/

theorem lookupRow_setRow_self {β : Type} (l : List (String × β)) (u : String) (v : β) :
    lookupRow (setRow l u v) u = some v := by
  induction l with
  | nil => simp [setRow, lookupRow]
  | cons kv rest ih =>
    obtain ⟨k, w⟩ := kv
    by_cases hk : k = u
    · simp [setRow, hk, lookupRow]
    · simp [setRow, hk, lookupRow, ih]

theorem lookupRow_setRow_ne {β : Type} (l : List (String × β)) (u w : String) (v : β)
    (h : w ≠ u) : lookupRow (setRow l u v) w = lookupRow l w := by
  induction l with
  | nil => simp [setRow, lookupRow, Ne.symm h]
  | cons kv rest ih =>
    obtain ⟨k, x⟩ := kv
    by_cases hk : k = u
    · subst hk
      simp [setRow, lookupRow, Ne.symm h]
    · simp [setRow, hk, lookupRow, ih]

theorem balanceOf_upsertCredits_self (s : Store) (u : AccountId) (v : Int) :
    balanceOf (upsertCredits s u v) u = v := by
  simp [balanceOf, upsertCredits, lookupRow_setRow_self]

theorem balanceOf_upsertCredits_ne (s : Store) (u w : AccountId) (v : Int)
    (h : w ≠ u) : balanceOf (upsertCredits s u v) w = balanceOf s w := by
  simp [balanceOf, upsertCredits, lookupRow_setRow_ne _ _ _ _ h]

theorem pkgCredits_nonneg (l : List (String × Int)) (p : String)
    (h : ∀ kv ∈ l, 0 ≤ kv.2) : 0 ≤ pkgCredits l p := by
  induction l with
  | nil => simp [pkgCredits]
  | cons kv rest ih =>
    obtain ⟨k, v⟩ := kv
    by_cases hk : k = p
    · simpa [pkgCredits, hk] using h (k, v) (by simp)
    · simp only [pkgCredits, hk, if_false]
      exact ih (fun kv hkv => h kv (List.mem_cons_of_mem _ hkv))

theorem lookupPkg_nonneg (p : String) : 0 ≤ lookupPkg p :=
  pkgCredits_nonneg CREDIT_PACKAGES p (by decide)

theorem creditCostUnit_nonneg (op : String) : 0 ≤ creditCostUnit op :=
  pkgCredits_nonneg CREDIT_COSTS op (by decide)

/-- The store produced by the atomic deduction, spelled out. -/
theorem deductCreditsAtomic_store (s : Store) (u : AccountId) (a : Int) (r : String) :
    (deductCreditsAtomic s u a r).1 =
      if 0 < a ∧ a ≤ balanceOf s u then
        { upsertCredits s u (balanceOf s u - a) with
          transactions := (upsertCredits s u (balanceOf s u - a)).transactions ++
            [Txn.mk u (-a) r ""] }
      else s := by
  unfold deductCreditsAtomic
  split <;> rfl

theorem nonNeg_upsertCredits (s : Store) (u : AccountId) (v : Int)
    (hs : NonNeg s) (hv : 0 ≤ v) : NonNeg (upsertCredits s u v) := by
  intro w
  by_cases hw : w = u
  · subst hw; rw [balanceOf_upsertCredits_self]; exact hv
  · rw [balanceOf_upsertCredits_ne s u w v hw]; exact hs w

theorem nonNeg_deductCreditsAtomic (s : Store) (u : AccountId) (a : Int) (r : String)
    (hs : NonNeg s) : NonNeg (deductCreditsAtomic s u a r).1 := by
  rw [deductCreditsAtomic_store]
  split
  · rename_i h
    intro w
    show 0 ≤ balanceOf (upsertCredits s u (balanceOf s u - a)) w
    exact nonNeg_upsertCredits s u _ hs (by omega) w
  · exact hs

theorem nonNeg_webhookWritePhase (s : Store) (cap : Capture) (u : AccountId)
    (add cur : Int) (hs : NonNeg s) (h : 0 ≤ cur + add) :
    NonNeg (webhookWritePhase s cap u add cur) := by
  intro w
  show 0 ≤ balanceOf (upsertCredits s u (cur + add)) w
  exact nonNeg_upsertCredits s u _ hs h w

theorem nonNeg_handlePaymentCompleted (s : Store) (cap : Capture)
    (hs : NonNeg s) : NonNeg (handlePaymentCompleted s cap).1 := by
  unfold handlePaymentCompleted
  split
  · exact hs
  · rename_i u p heq
    split
    · exact hs
    · exact nonNeg_webhookWritePhase s cap u _ _ hs
        (add_nonneg (hs u) (lookupPkg_nonneg p))

theorem nonNeg_batchCommitPhase (s : Store) (u : AccountId) (op : String)
    (fs : List String) (cost : Int) (hs : NonNeg s) :
    NonNeg (batchCommitPhase s u op fs cost) := by
  intro w
  show 0 ≤ balanceOf (deductCreditsAtomic
    { s with batchJobs := s.batchJobs ++ [mkBatchJob u op fs] }
    u cost (batchDeductReason op fs)).1 w
  exact nonNeg_deductCreditsAtomic
    { s with batchJobs := s.batchJobs ++ [mkBatchJob u op fs] }
    u cost (batchDeductReason op fs) (fun x => hs x) w

theorem nonNeg_batchPOST (s : Store) (u : AccountId) (operation : Option String)
    (files : Option (List String)) (hs : NonNeg s) :
    NonNeg (batchPOST s u operation files).store := by
  unfold batchPOST
  split
  · split
    · exact hs
    · split
      · exact hs
      · split
        · exact hs
        · exact nonNeg_batchCommitPhase s u _ _ _ hs
  · exact hs

theorem nonNeg_reconcile (s : Store) (u : AccountId) (reserved actual : Int)
    (hs : NonNeg s) : NonNeg (reconcile s u reserved actual) := by
  unfold reconcile
  split
  · rename_i h
    intro w
    show 0 ≤ balanceOf (upsertCredits s u (balanceOf s u + (reserved - actual))) w
    exact nonNeg_upsertCredits s u _ hs (by have := hs u; omega) w
  · exact hs

theorem nonNeg_applyOp (s : Store) (op : LedgerOp) (hs : NonNeg s) :
    NonNeg (applyOp s op) := by
  cases op with
  | creditEvent cap => exact nonNeg_handlePaymentCompleted s cap hs
  | reserveJob u o fs => exact nonNeg_batchPOST s u o fs hs
  | reconcileJob u r a => exact nonNeg_reconcile s u r a hs

theorem balanceOf_deduct_self (s : Store) (u : AccountId) (a : Int) (r : String)
    (h1 : 0 < a) (h2 : a ≤ balanceOf s u) :
    balanceOf (deductCreditsAtomic s u a r).1 u = balanceOf s u - a := by
  rw [deductCreditsAtomic_store, if_pos (And.intro h1 h2)]
  show balanceOf (upsertCredits s u (balanceOf s u - a)) u = balanceOf s u - a
  exact balanceOf_upsertCredits_self s u _

theorem balanceOf_batchCommitPhase_self (s : Store) (u : AccountId) (op : String)
    (fs : List String) (cost : Int) (h1 : 0 < cost) (h2 : cost ≤ balanceOf s u) :
    balanceOf (batchCommitPhase s u op fs cost) u = balanceOf s u - cost := by
  show balanceOf (deductCreditsAtomic
    { s with batchJobs := s.batchJobs ++ [mkBatchJob u op fs] }
    u cost (batchDeductReason op fs)).1 u = balanceOf s u - cost
  exact balanceOf_deduct_self
    { s with batchJobs := s.batchJobs ++ [mkBatchJob u op fs] } u cost _ h1 h2

theorem creditCostUnit_pos (op : String) (h : creditCostUnit op ≠ 0) :
    0 < creditCostUnit op :=
  lt_of_le_of_ne (creditCostUnit_nonneg op) (Ne.symm h)

theorem batchCost_pos (op : String) (fs : List String)
    (hcu : creditCostUnit op ≠ 0) (hfs : fs ≠ []) :
    0 < creditCostUnit op * fs.length := by
  have h1 : 0 < creditCostUnit op := creditCostUnit_pos op hcu
  have h2 : 0 < (fs.length : Int) := by
    have := List.length_pos.mpr hfs
    exact_mod_cast this
  exact mul_pos h1 h2

theorem batchPOST_success_eq (s : Store) (u : AccountId) (op : String)
    (fs : List String) (hop : op ≠ "") (hfs : fs ≠ [])
    (hcu : creditCostUnit op ≠ 0)
    (hbal : creditCostUnit op * fs.length ≤ balanceOf s u) :
    batchPOST s u (some op) (some fs) =
      BatchOutcome.mk (batchCommitPhase s u op fs (creditCostUnit op * fs.length))
        (BatchResp.success (creditCostUnit op * fs.length))
        [StoreWrite.insertJob (mkBatchJob u op fs),
         StoreWrite.rpcDeduct u (creditCostUnit op * fs.length) (batchDeductReason op fs),
         StoreWrite.insertQueue "batch_pdf"] := by
  have hchk : batchCheckPhase s u (creditCostUnit op * fs.length) = true := by
    simp only [batchCheckPhase, decide_eq_true_eq]
    exact hbal
  unfold batchPOST
  dsimp only
  rw [if_neg (by simp [hop, hfs]), if_neg hcu, if_neg (by simp [hchk])]

theorem batchPOST_insufficient_eq (s : Store) (u : AccountId) (op : String)
    (fs : List String) (hop : op ≠ "") (hfs : fs ≠ [])
    (hcu : creditCostUnit op ≠ 0)
    (hbal : balanceOf s u < creditCostUnit op * fs.length) :
    batchPOST s u (some op) (some fs) =
      BatchOutcome.mk s
        (BatchResp.insufficient (creditCostUnit op * fs.length) (balanceOf s u)) [] := by
  have hchk : batchCheckPhase s u (creditCostUnit op * fs.length) = false := by
    simp only [batchCheckPhase, decide_eq_false_iff_not, not_le]
    exact hbal
  unfold batchPOST
  dsimp only
  rw [if_neg (by simp [hop, hfs]), if_neg hcu, if_pos (by simp [hchk])]

/-! ## Claim theorems -/

/-- Claim C1, counterexample: delivering the completed-payment event
`cap_123` (plan `STARTER_PLAN`, 100 credits) three times appends three
ledger entries and triples the balance — not exactly one entry and one
increase; the second delivery is accepted, not recognized as a
duplicate. -/
theorem C1_counterexample :
    deliverThrice.transactions.length = 3 ∧
    balanceOf deliverThrice "user-1" = 300 ∧
    (deliverThrice.transactions.filter (fun t => t.capture_id = "cap_123")).length ≠ 1 ∧
    (handlePaymentCompleted deliverOnce cap123).2 = HandleResult.accepted := by
  decide

/-- Claim C1 (amended): the webhook handler keeps no dedup record:
every delivery of a completed-payment event with present ids and a
known plan — including a redelivery of an already-applied event — is
accepted, appends one more ledger entry and increases the balance by
the plan's credits again. -/
theorem C1_no_dedup (s : Store) (cap : Capture) (u p : String)
    (hid : capIds cap = some (u, p)) (hp : lookupPkg p ≠ 0) :
    (handlePaymentCompleted s cap).2 = HandleResult.accepted ∧
    (handlePaymentCompleted s cap).1.transactions.length = s.transactions.length + 1 ∧
    balanceOf (handlePaymentCompleted s cap).1 u = balanceOf s u + lookupPkg p := by
  unfold handlePaymentCompleted
  rw [hid]
  dsimp only
  rw [if_neg hp]
  refine ⟨rfl, ?_, ?_⟩
  · show ((upsertCredits s u _).transactions ++ [_]).length = s.transactions.length + 1
    simp [upsertCredits]
  · show balanceOf (upsertCredits s u (webhookReadPhase s u + lookupPkg p)) u =
      balanceOf s u + lookupPkg p
    rw [balanceOf_upsertCredits_self]
    rfl

/-- Witness for the amended C1 theorem: a second delivery of `cap_123`
is accepted and mutates balance and ledger again. -/
theorem C1_no_dedup_witness :
    (handlePaymentCompleted deliverOnce cap123).2 = HandleResult.accepted ∧
    (handlePaymentCompleted deliverOnce cap123).1.transactions.length =
      deliverOnce.transactions.length + 1 ∧
    balanceOf (handlePaymentCompleted deliverOnce cap123).1 "user-1" =
      balanceOf deliverOnce "user-1" + lookupPkg "STARTER_PLAN" :=
  C1_no_dedup deliverOnce cap123 "user-1" "STARTER_PLAN" (by decide) (by decide)

/-- Claim C5, counterexample: a completed-payment event with the
unknown plan id `MYSTERY_PLAN` is rejected by the handler, yet the
webhook endpoint answers HTTP 200, which is not a 4xx status. -/
theorem C5_counterexample :
    (webhookPOST Store.empty true (PayPalEvent.captureCompleted mysteryCap)).2 = 200 ∧
    (handlePaymentCompleted Store.empty mysteryCap).2 = HandleResult.rejectedUnknownPlan ∧
    ¬ (400 ≤ 200 ∧ 200 < 500) := by
  decide

/-- Claim C5 (amended): whenever signature verification succeeds the
webhook endpoint answers 200 for every event — accepted, rejected for
missing or unknown identifiers, failed captures and unhandled types
alike; the only non-200 response is 400 on signature-verification
failure. -/
theorem C5_always_200 :
    (∀ (s : Store) (ev : PayPalEvent), (webhookPOST s true ev).2 = 200) ∧
    (∀ (s : Store) (ev : PayPalEvent), (webhookPOST s false ev).2 = 400) := by
  constructor
  · intro s ev
    cases ev <;> rfl
  · intro s ev
    rfl

/-- Claim C6: a completed-payment webhook whose account or plan id is
missing, or whose plan id is outside the static package table, is
handled by one of the two logged rejection branches and leaves the
store untouched: no ledger entry is appended and every balance is
unchanged — in particular no credit is granted by default. -/
theorem C6_reject_no_effect (s : Store) (cap : Capture)
    (h : capIds cap = none ∨
      ∃ u p, capIds cap = some (u, p) ∧ lookupPkg p = 0) :
    (handlePaymentCompleted s cap).1 = s ∧
    (handlePaymentCompleted s cap).1.transactions = s.transactions ∧
    (∀ w, balanceOf (handlePaymentCompleted s cap).1 w = balanceOf s w) ∧
    ((handlePaymentCompleted s cap).2 = HandleResult.rejectedMissing ∨
     (handlePaymentCompleted s cap).2 = HandleResult.rejectedUnknownPlan) := by
  have hst : handlePaymentCompleted s cap = (s, HandleResult.rejectedMissing) ∨
      handlePaymentCompleted s cap = (s, HandleResult.rejectedUnknownPlan) := by
    rcases h with h | ⟨u, p, h, hp⟩
    · left
      unfold handlePaymentCompleted
      rw [h]
    · right
      unfold handlePaymentCompleted
      rw [h]
      dsimp only
      rw [if_pos hp]
  rcases hst with h' | h'
  · rw [h']
    exact ⟨rfl, rfl, fun w => rfl, Or.inl rfl⟩
  · rw [h']
    exact ⟨rfl, rfl, fun w => rfl, Or.inr rfl⟩

/-- Witness for C6 at the concrete unknown-plan event. -/
theorem C6_witness :
    (handlePaymentCompleted Store.empty mysteryCap).1 = Store.empty ∧
    balanceOf (handlePaymentCompleted Store.empty mysteryCap).1 "user-1" =
      balanceOf Store.empty "user-1" ∧
    ((handlePaymentCompleted Store.empty mysteryCap).2 = HandleResult.rejectedMissing ∨
     (handlePaymentCompleted Store.empty mysteryCap).2 = HandleResult.rejectedUnknownPlan) := by
  have h := C6_reject_no_effect Store.empty mysteryCap
    (Or.inr ⟨"user-1", "MYSTERY_PLAN", by decide, by decide⟩)
  exact ⟨h.1, h.2.2.1 "user-1", h.2.2.2⟩

/-- Claim C4, counterexample: on a successful submission the handler's
first store write is the `batch_jobs` insert — in status 'pending',
not 'Reserved' — and the credit deduction is issued only afterwards,
not first. -/
theorem C4_counterexample :
    (batchPOST sAlice "alice" (some "merge") (some ["f1"])).resp = BatchResp.success 1 ∧
    (batchPOST sAlice "alice" (some "merge") (some ["f1"])).trace =
      [StoreWrite.insertJob (mkBatchJob "alice" "merge" ["f1"]),
       StoreWrite.rpcDeduct "alice" 1 (batchDeductReason "merge" ["f1"]),
       StoreWrite.insertQueue "batch_pdf"] ∧
    (mkBatchJob "alice" "merge" ["f1"]).status = "pending" ∧
    "pending" ≠ "Reserved" := by
  decide

/-- Claim C4 (amended): for every successful batch submission the
`BatchJob` row is persisted first — in status 'pending', with one
pending file entry per input — and only afterwards is the deduction
RPC issued, carrying only user id, amount and reason (no idempotency
key); consequently an identical client retry that still has funds is
charged a second time. -/
theorem C4_job_then_deduct (s : Store) (u : AccountId) (op : String)
    (fs : List String) (hop : op ≠ "") (hfs : fs ≠ [])
    (hcu : creditCostUnit op ≠ 0)
    (hbal : creditCostUnit op * fs.length ≤ balanceOf s u) :
    (batchPOST s u (some op) (some fs)).trace =
      [StoreWrite.insertJob (mkBatchJob u op fs),
       StoreWrite.rpcDeduct u (creditCostUnit op * fs.length) (batchDeductReason op fs),
       StoreWrite.insertQueue "batch_pdf"] ∧
    (mkBatchJob u op fs).status = "pending" ∧
    (mkBatchJob u op fs).files = fs.map (fun f => BatchFileRec.mk f "pending") ∧
    (creditCostUnit op * fs.length + creditCostUnit op * fs.length ≤ balanceOf s u →
      balanceOf (batchPOST (batchPOST s u (some op) (some fs)).store
          u (some op) (some fs)).store u
        = balanceOf s u - creditCostUnit op * fs.length - creditCostUnit op * fs.length) := by
  have hsucc := batchPOST_success_eq s u op fs hop hfs hcu hbal
  refine ⟨by rw [hsucc], rfl, rfl, ?_⟩
  intro h2
  have hcost := batchCost_pos op fs hcu hfs
  have hb1 : balanceOf (batchPOST s u (some op) (some fs)).store u
      = balanceOf s u - creditCostUnit op * fs.length := by
    rw [hsucc]
    exact balanceOf_batchCommitPhase_self s u op fs _ hcost hbal
  have hbal2 : creditCostUnit op * fs.length ≤
      balanceOf (batchPOST s u (some op) (some fs)).store u := by
    rw [hb1]
    omega
  have hsucc2 := batchPOST_success_eq (batchPOST s u (some op) (some fs)).store
    u op fs hop hfs hcu hbal2
  rw [hsucc2]
  have := balanceOf_batchCommitPhase_self (batchPOST s u (some op) (some fs)).store
    u op fs _ hcost hbal2
  rw [this, hb1]

/-- Witness for the amended C4 theorem on a concrete submission with
enough balance for the double charge of a retry. -/
theorem C4_witness :
    (batchPOST sAlice "alice" (some "merge") (some ["f2"])).trace =
      [StoreWrite.insertJob (mkBatchJob "alice" "merge" ["f2"]),
       StoreWrite.rpcDeduct "alice" (creditCostUnit "merge" * [("f2" : String)].length)
         (batchDeductReason "merge" ["f2"]),
       StoreWrite.insertQueue "batch_pdf"] ∧
    balanceOf (batchPOST (batchPOST sAlice "alice" (some "merge") (some ["f2"])).store
        "alice" (some "merge") (some ["f2"])).store "alice"
      = balanceOf sAlice "alice" - creditCostUnit "merge" * [("f2" : String)].length
          - creditCostUnit "merge" * [("f2" : String)].length := by
  have h := C4_job_then_deduct sAlice "alice" "merge" ["f2"]
    (by decide) (by decide) (by decide) (by decide)
  exact ⟨h.1, h.2.2.2 (by decide)⟩

/-- Claim C7: when the balance is below the computed cost, the batch
submission answers Insufficient carrying the required amount and the
available balance, the store is returned unchanged — no `batch_jobs`
row is created and no balance is mutated. -/
theorem C7_insufficient (s : Store) (u : AccountId) (op : String)
    (fs : List String) (hop : op ≠ "") (hfs : fs ≠ [])
    (hcu : creditCostUnit op ≠ 0)
    (hbal : balanceOf s u < creditCostUnit op * fs.length) :
    batchPOST s u (some op) (some fs) =
      BatchOutcome.mk s
        (BatchResp.insufficient (creditCostUnit op * fs.length) (balanceOf s u)) [] ∧
    (batchPOST s u (some op) (some fs)).store.batchJobs = s.batchJobs ∧
    balanceOf (batchPOST s u (some op) (some fs)).store u = balanceOf s u := by
  have h := batchPOST_insufficient_eq s u op fs hop hfs hcu hbal
  exact ⟨h, by rw [h], by rw [h]⟩

/-- Witness for C7: two OCR files cost 6 against a balance of 5. -/
theorem C7_witness :
    batchPOST sAlice "alice" (some "ocr") (some ["a", "b"]) =
      BatchOutcome.mk sAlice
        (BatchResp.insufficient (creditCostUnit "ocr" * [("a" : String), "b"].length)
          (balanceOf sAlice "alice")) [] ∧
    balanceOf (batchPOST sAlice "alice" (some "ocr") (some ["a", "b"])).store "alice"
      = balanceOf sAlice "alice" := by
  have h := C7_insufficient sAlice "alice" "ocr" ["a", "b"]
    (by decide) (by decide) (by decide) (by decide)
  exact ⟨h.1, h.2.2⟩

/-- Claim C8: on a valid submission the charged amount equals the
operation's fixed per-unit cost times the number of files, and the
per-unit table is merge = split = compress = watermark = rotate =
password operations = page operations = 1, convert = 2, ocr = 3. -/
theorem C8_cost_formula (s : Store) (u : AccountId) (op : String)
    (fs : List String) (hop : op ≠ "") (hfs : fs ≠ [])
    (hcu : creditCostUnit op ≠ 0)
    (hbal : creditCostUnit op * fs.length ≤ balanceOf s u) :
    (batchPOST s u (some op) (some fs)).resp =
      BatchResp.success (creditCostUnit op * fs.length) ∧
    balanceOf (batchPOST s u (some op) (some fs)).store u
      = balanceOf s u - creditCostUnit op * fs.length ∧
    (creditCostUnit "merge" = 1 ∧ creditCostUnit "split" = 1 ∧
     creditCostUnit "compress" = 1 ∧ creditCostUnit "watermark" = 1 ∧
     creditCostUnit "rotate" = 1 ∧ creditCostUnit "password_protect" = 1 ∧
     creditCostUnit "remove_password" = 1 ∧ creditCostUnit "extract_pages" = 1 ∧
     creditCostUnit "add_page_numbers" = 1 ∧ creditCostUnit "convert" = 2 ∧
     creditCostUnit "ocr" = 3) := by
  have hsucc := batchPOST_success_eq s u op fs hop hfs hcu hbal
  refine ⟨by rw [hsucc], ?_, by decide⟩
  rw [hsucc]
  exact balanceOf_batchCommitPhase_self s u op fs _ (batchCost_pos op fs hcu hfs) hbal

/-- Witness for C8: merging two files charges 2 credits. -/
theorem C8_witness :
    (batchPOST sAlice "alice" (some "merge") (some ["f1", "f2"])).resp =
      BatchResp.success (creditCostUnit "merge" * [("f1" : String), "f2"].length) ∧
    balanceOf (batchPOST sAlice "alice" (some "merge") (some ["f1", "f2"])).store "alice"
      = balanceOf sAlice "alice" - creditCostUnit "merge" * [("f1" : String), "f2"].length := by
  have h := C8_cost_formula sAlice "alice" "merge" ["f1", "f2"]
    (by decide) (by decide) (by decide) (by decide)
  exact ⟨h.1, h.2.1⟩

/-- Claim C2, counterexample: with a balance of 1 and two concurrent
one-file merge submissions (cost 1 each, combined 2), the interleaving
check₁ check₂ commit₁ commit₂ lets both requests reach their success
response (`pc = 2`) although their combined cost exceeds the balance:
the handler's balance check and its deduction are separate store
operations. -/
theorem C2_counterexample :
    (runSched raceStore raceThread raceThread [false, true, false, true]).2.1.pc = 2 ∧
    (runSched raceStore raceThread raceThread [false, true, false, true]).2.2.pc = 2 ∧
    balanceOf raceStore "alice" < threadCost raceThread + threadCost raceThread := by
  decide

/-- Claim C2 (amended): balance mutations are not single atomic
operations.  Any two batch submissions that each pass the balance
check against the same starting store both reach their success state
under the interleaving check₁ check₂ commit₁ commit₂, even when their
combined cost exceeds the balance; and the webhook handler's accepted
path factors as a write of a total computed from a separate earlier
balance read. -/
theorem C2_not_atomic (s : Store) (t1 t2 : BatchThread)
    (h1 : t1.pc = 0) (h2 : t2.pc = 0)
    (hc1 : batchCheckPhase s t1.u (threadCost t1) = true)
    (hc2 : batchCheckPhase s t2.u (threadCost t2) = true) :
    ((runSched s t1 t2 [false, true, false, true]).2.1.pc = 2 ∧
     (runSched s t1 t2 [false, true, false, true]).2.2.pc = 2) ∧
    (∀ (s' : Store) (cap : Capture) (u p : String),
      capIds cap = some (u, p) → lookupPkg p ≠ 0 →
      handlePaymentCompleted s' cap =
        (webhookWritePhase s' cap u (lookupPkg p) (webhookReadPhase s' u),
         HandleResult.accepted)) := by
  constructor
  · obtain ⟨pc1, u1, op1, fs1⟩ := t1
    obtain ⟨pc2, u2, op2, fs2⟩ := t2
    dsimp only at h1 h2
    subst h1
    subst h2
    simp [runSched, stepBatchThread, hc1, hc2]
  · intro s' cap u p hid hp
    unfold handlePaymentCompleted
    rw [hid]
    dsimp only
    rw [if_neg hp]

/-- Witness for the amended C2 theorem on the concrete race and the
concrete accepted webhook event. -/
theorem C2_witness :
    ((runSched raceStore raceThread raceThread [false, true, false, true]).2.1.pc = 2 ∧
     (runSched raceStore raceThread raceThread [false, true, false, true]).2.2.pc = 2) ∧
    handlePaymentCompleted Store.empty cap123 =
      (webhookWritePhase Store.empty cap123 "user-1" (lookupPkg "STARTER_PLAN")
        (webhookReadPhase Store.empty "user-1"),
       HandleResult.accepted) := by
  have h := C2_not_atomic raceStore raceThread raceThread rfl rfl (by decide) (by decide)
  exact ⟨h.1, h.2 Store.empty cap123 "user-1" "STARTER_PLAN" (by decide) (by decide)⟩

/-- Claim C3: starting from any store whose balances are all
non-negative, applying any sequence of credit (webhook
completed-payment), reserve (batch submission) and reconcile
operations keeps every account balance non-negative. -/
theorem C3_balance_nonneg (s : Store) (ops : List LedgerOp) (hs : NonNeg s) :
    NonNeg (applyOps s ops) := by
  induction ops generalizing s with
  | nil => exact hs
  | cons op rest ih => exact ih (applyOp s op) (nonNeg_applyOp s op hs)

/-- Witness for C3 on a concrete credit–reserve–reconcile sequence
from the empty store. -/
theorem C3_witness : 0 ≤ balanceOf (applyOps Store.empty demoOps) "user-1" :=
  C3_balance_nonneg Store.empty demoOps (fun _ => le_refl 0) "user-1"

theorem checkRateLimit_denied (now : Nat) (m : RateMap) (u : String) (c r : Nat)
    (hm : lookupRow m u = some (RateEntry.mk c r)) (hnow : now ≤ r)
    (hc : RATE_LIMIT ≤ c) :
    checkRateLimit now m u = (false, m) := by
  unfold checkRateLimit
  rw [hm]
  dsimp only
  rw [if_neg (not_lt.mpr hnow), if_pos hc]

theorem checkRateLimit_granted (now : Nat) (m : RateMap) (u : String) (c r : Nat)
    (hm : lookupRow m u = some (RateEntry.mk c r)) (hnow : now ≤ r)
    (hc : c < RATE_LIMIT) :
    checkRateLimit now m u = (true, setRow m u (RateEntry.mk (c + 1) r)) := by
  unfold checkRateLimit
  rw [hm]
  dsimp only
  rw [if_neg (not_lt.mpr hnow), if_neg (not_le.mpr hc)]

theorem checkRateLimit_newWindow (now : Nat) (m : RateMap) (u : String) (e : RateEntry)
    (hm : lookupRow m u = some e) (hnow : e.resetAt < now) :
    checkRateLimit now m u = (true, setRow m u (RateEntry.mk 1 (now + RATE_WINDOW))) := by
  unfold checkRateLimit
  rw [hm]
  dsimp only
  rw [if_pos hnow]

theorem runCalls_count_bound (u : String) (ts : List Nat) (m : RateMap) (c r : Nat)
    (hm : lookupRow m u = some (RateEntry.mk c r)) (hc : c ≤ RATE_LIMIT)
    (hts : ∀ t ∈ ts, t ≤ r) :
    ((runCalls u ts m).1.count true) + c ≤ RATE_LIMIT := by
  induction ts generalizing m c with
  | nil => simpa [runCalls] using hc
  | cons t rest ih =>
    have ht : t ≤ r := hts t (by simp)
    have hrest : ∀ x ∈ rest, x ≤ r := fun x hx => hts x (by simp [hx])
    by_cases hfull : RATE_LIMIT ≤ c
    · have hstep := checkRateLimit_denied t m u c r hm ht hfull
      have hb := ih m c hm hc hrest
      simp only [runCalls, hstep, List.count_cons]
      simp only [runCalls] at hb
      simp
      omega
    · have hlt : c < RATE_LIMIT := Nat.lt_of_not_le hfull
      have hstep := checkRateLimit_granted t m u c r hm ht hlt
      have hm' : lookupRow (setRow m u (RateEntry.mk (c + 1) r)) u =
          some (RateEntry.mk (c + 1) r) := lookupRow_setRow_self m u _
      have hb := ih (setRow m u (RateEntry.mk (c + 1) r)) (c + 1) hm' hlt hrest
      simp only [runCalls, hstep, List.count_cons]
      simp only [runCalls] at hb
      simp
      omega

/-- Claim C9: the fixed-window limiter admits at most `RATE_LIMIT = 10`
calls per identity and window: a window opened at `t0` grants at most
10 of any sequence of calls staying within it (so an 11th in-window
call is denied); with the counter at the limit a further in-window
call returns false and mutates nothing; and the first call past the
window's reset time returns true and starts a fresh window with
counter 1. -/
theorem C9_fixed_window :
    (∀ (u : String) (t0 : Nat) (ts : List Nat),
      (∀ t ∈ ts, t ≤ t0 + RATE_WINDOW) →
      ((runCalls u (t0 :: ts) []).1.count true) ≤ RATE_LIMIT) ∧
    (∀ (u : String) (m : RateMap) (now r : Nat),
      lookupRow m u = some (RateEntry.mk RATE_LIMIT r) → now ≤ r →
      checkRateLimit now m u = (false, m)) ∧
    (∀ (u : String) (m : RateMap) (now : Nat) (e : RateEntry),
      lookupRow m u = some e → e.resetAt < now →
      checkRateLimit now m u = (true, setRow m u (RateEntry.mk 1 (now + RATE_WINDOW)))) := by
  refine ⟨?_, ?_, ?_⟩
  · intro u t0 ts hts
    have hstep : checkRateLimit t0 [] u =
        (true, [(u, RateEntry.mk 1 (t0 + RATE_WINDOW))]) := rfl
    have hm : lookupRow [(u, RateEntry.mk 1 (t0 + RATE_WINDOW))] u =
        some (RateEntry.mk 1 (t0 + RATE_WINDOW)) := by simp [lookupRow]
    have hb := runCalls_count_bound u ts [(u, RateEntry.mk 1 (t0 + RATE_WINDOW))]
      1 (t0 + RATE_WINDOW) hm (by decide) hts
    simp only [runCalls, hstep, List.count_cons]
    simp only [runCalls] at hb
    simp
    omega
  · intro u m now r hm hnow
    exact checkRateLimit_denied now m u RATE_LIMIT r hm hnow le_rfl
  · intro u m now e hm hnow
    exact checkRateLimit_newWindow now m u e hm hnow

/-- Witness for C9: eleven calls at time 0 grant at most ten; a call
at the limit is denied; the first call after the reset time opens a
counter-1 window. -/
theorem C9_witness :
    ((runCalls "u" ((0 : Nat) :: List.replicate 10 0) []).1.count true) ≤ RATE_LIMIT ∧
    checkRateLimit 5 [("u", RateEntry.mk RATE_LIMIT 60000)] "u" =
      (false, [("u", RateEntry.mk RATE_LIMIT 60000)]) ∧
    checkRateLimit 60001 [("u", RateEntry.mk 10 60000)] "u" =
      (true, setRow [("u", RateEntry.mk 10 60000)] "u"
        (RateEntry.mk 1 (60001 + RATE_WINDOW))) :=
  ⟨C9_fixed_window.1 "u" 0 (List.replicate 10 0) (by decide),
   C9_fixed_window.2.1 "u" [("u", RateEntry.mk RATE_LIMIT 60000)] 5 60000
     (by decide) (by decide),
   C9_fixed_window.2.2 "u" [("u", RateEntry.mk 10 60000)] 60001
     (RateEntry.mk 10 60000) (by decide) (by decide)⟩

/-- Claim C10: the deduction endpoint answers the 400 rejection
exactly when the requested amount is missing, non-numeric,
non-positive or above 1000 — and in that case performs no deduction,
returning the store untouched; a numeric amount with `0 < n ≤ 1000`
always proceeds past validation to the atomic deduction. -/
theorem C10_amount_validation (s : Store) (u : AccountId)
    (amount : Option JsonVal) (reason : Option String) :
    (isBadRequest (deductPOST s u amount reason).2 = true ↔
      validAmount amount = false) ∧
    (validAmount amount = false → (deductPOST s u amount reason).1 = s) := by
  cases amount with
  | none =>
    simp [deductPOST, jsTruthy, isNumberVal, isBadRequest, validAmount]
  | some v =>
    cases v with
    | num n =>
      by_cases h0 : n = 0
      · subst h0
        simp [deductPOST, jsTruthy, isNumberVal, isBadRequest, validAmount]
      · by_cases hneg : n ≤ 0
        · have : ¬ (0 : Int) < n := by omega
          simp [deductPOST, jsTruthy, isNumberVal, h0, hneg, isBadRequest,
            validAmount, this]
        · by_cases hbig : n > 1000
          · have : ¬ n ≤ (1000 : Int) := by omega
            simp [deductPOST, jsTruthy, isNumberVal, h0, hneg, hbig,
              isBadRequest, validAmount, this]
          · have hv : validAmount (some (.num n)) = true := by
              simp [validAmount]
              omega
            rcases hds : deductCreditsAtomic s u n (reasonOrDefault reason)
              with ⟨s1, r⟩
            cases hr : r.success <;>
              simp [deductPOST, jsTruthy, isNumberVal, h0, hneg, hbig,
                isBadRequest, hv, hds, hr]
    | str t =>
      simp [deductPOST, jsTruthy, isNumberVal, isBadRequest, validAmount]
    | boolean b =>
      cases b <;>
        simp [deductPOST, jsTruthy, isNumberVal, isBadRequest, validAmount]
    | null =>
      simp [deductPOST, jsTruthy, isNumberVal, isBadRequest, validAmount]

/-- Witness for C10 at an over-limit amount: 1001 is rejected and the
store is unchanged. -/
theorem C10_witness :
    (isBadRequest (deductPOST sAlice "alice" (some (.num 1001)) none).2 = true ↔
      validAmount (some (.num 1001)) = false) ∧
    (deductPOST sAlice "alice" (some (.num 1001)) none).1 = sAlice := by
  have h := C10_amount_validation sAlice "alice" (some (.num 1001)) none
  exact ⟨h.1, h.2 (by decide)⟩

end PdfBuilder
